import Mathlib

/-!
Evidence Contradiction Engine: client-side orchestration and result shaping.

A shallow embedding of the front end's logic:

* `analysisService.js`: `extractTrialData`, `analyzeContradiction`;
* `App.jsx`: `handleFileChange`, `handleAnalyze`;
* `ResultsTable.jsx`: `getStrengthTextColor` and the strength parsing, the
  consensus-statement test;
* `ForestPlot.jsx`: the `chartData` projection;
* `OutcomeMap.jsx`: `getEffectStyles` and the card projection.

JavaScript strings are sequences of UTF-16 code units, and `length`, `split`,
`includes`, `trim` and `substring` all work on code units, so a string is
modelled as a list of code units.  `String.prototype.toLowerCase` is a
built-in with the full Unicode case mapping; it is taken as a parameter
`toLowerCase` wherever the source calls it.
-/

namespace EvidenceEngine

/-! ## JavaScript strings -/

/-- A JavaScript string: its UTF-16 code units. -/
abbrev JSString := List Nat

/-- The code units of a literal of the source (all literals used are in the
Basic Multilingual Plane, one code unit per character). -/
def lit (s : String) : JSString := s.toList.map Char.toNat

/-- Truthiness of a string value: only the empty string is falsy. -/
def truthy (s : JSString) : Bool := !s.isEmpty

/-- `s.includes(pat)`: `pat` occurs in `s` at some position. -/
def includes (pat : JSString) : JSString → Bool
  | [] => pat.isPrefixOf []
  | c :: cs => pat.isPrefixOf (c :: cs) || includes pat cs

/-- The loop of `s.split(sep)` for a non-empty `sep`: `skip` counts the code
units of a matched separator still to be passed over, `cur` holds the current
piece in reverse. -/
def splitGo (sep : JSString) : JSString → Nat → JSString → List JSString
  | [], _, cur => [cur.reverse]
  | _ :: cs, skip + 1, cur => splitGo sep cs skip cur
  | c :: cs, 0, cur =>
    if sep.isPrefixOf (c :: cs) then cur.reverse :: splitGo sep cs (sep.length - 1) []
    else splitGo sep cs 0 (c :: cur)

/-- `s.split(sep)` for a non-empty separator string: the pieces between the
successive occurrences of `sep`, searched left to right. -/
def split (sep s : JSString) : List JSString := splitGo sep s 0 []

/-- `parts.join(sep)`. -/
def join (sep : JSString) : List JSString → JSString
  | [] => []
  | [x] => x
  | x :: y :: rest => x ++ sep ++ join sep (y :: rest)

/-- White space and line terminators, the code units `trim` strips. -/
def isWhiteSpace (c : Nat) : Bool :=
  c == 9 || c == 10 || c == 11 || c == 12 || c == 13 || c == 32 || c == 160 ||
  c == 5760 || (8192 ≤ c && c ≤ 8202) || c == 8232 || c == 8233 || c == 8239 ||
  c == 8287 || c == 12288 || c == 65279

/-- `s.trim()`. -/
def trim (s : JSString) : JSString :=
  ((s.dropWhile isWhiteSpace).reverse.dropWhile isWhiteSpace).reverse

/-- `s.substring(0, n)`. -/
def substring0 (n : Nat) (s : JSString) : JSString := s.take n

/-- The ASCII part of `toLowerCase`: `A`..`Z` go to `a`..`z`, every other code
unit is kept.  It is what the built-in does on strings of ASCII code units. -/
def asciiToLowerCase (s : JSString) : JSString :=
  s.map (fun c => if 65 ≤ c ∧ c ≤ 90 then c + 32 else c)

/-- The string a template literal renders for a string-or-undefined value. -/
def renderTemplate : Option JSString → JSString
  | some s => s
  | none => lit "undefined"

/-! ## Record types -/

/-- A `File` of the upload input: its name and its bytes. -/
structure File where
  name : JSString
  content : List Nat
  deriving DecidableEq

/-- The PICO-O record returned by `/api/extract`; a field that the JSON body
lacks is `none` (`undefined`). -/
structure StudyRecord where
  study_id : Option JSString
  population : Option JSString
  intervention : Option JSString
  comparator : Option JSString
  outcome : Option JSString
  deriving DecidableEq

/-- One point of `forest_plot_data`. -/
structure EffectPoint where
  study_id : Option JSString
  effect_estimate : Option ℚ
  ci_lower : Option ℚ
  ci_upper : Option ℚ
  deriving DecidableEq

/-- One entry of `outcome_map_data`. -/
structure OutcomeEntry where
  study_id : Option JSString
  outcome_label : Option JSString
  effect_direction : Option JSString
  deriving DecidableEq

/-- The analysis object returned by `/api/contradict`, or built locally for a
single study. -/
structure SynthesisResult where
  consensus_summary : Option JSString
  contradiction_alert : Option JSString
  strength_of_evidence : Option JSString
  forest_plot_data : Option (List EffectPoint)
  outcome_map_data : Option (List OutcomeEntry)
  deriving DecidableEq

/-! ## analysisService.js -/

/-- A JSON body after `response.json()`: the object as the caller receives it,
and its `detail` property (`none` when the object has none). -/
structure ParsedBody (α : Type) where
  value : α
  detail : Option JSString

/-- What `fetch` resolves to: the `ok` flag, and the result of `json()`, which
rejects with a message when the body is not JSON. -/
structure Response (α : Type) where
  ok : Bool
  json : Except JSString (ParsedBody α)

/-- The remote service as seen by one run: the outcome of the `fetch` of the
`i`-th extraction call of the run, and of the `fetch` of the synthesis call.
`Except.error m` is a rejected `fetch` with message `m`. -/
structure Network where
  extract : Nat → File → Except JSString (Response StudyRecord)
  contradict : List StudyRecord → Except JSString (Response SynthesisResult)

/-- `extractTrialData(file)`, as the `i`-th extraction call of a run:
`Except.error m` is a thrown error with `err.message = m`. -/
def extractTrialData (net : Network) (i : Nat) (file : File) : Except JSString StudyRecord :=
  match net.extract i file with
  | .error m => .error m
  | .ok response =>
    if !response.ok then
      match response.json with
      | .error m => .error m
      | .ok error =>
        .error (lit "Extraction failed for " ++ file.name ++ lit ": " ++ renderTemplate error.detail)
    else
      match response.json with
      | .error m => .error m
      | .ok body => .ok body.value

/-- `analyzeContradiction(studies)`. -/
def analyzeContradiction (net : Network) (studies : List StudyRecord) :
    Except JSString SynthesisResult :=
  match net.contradict studies with
  | .error m => .error m
  | .ok response =>
    if !response.ok then
      match response.json with
      | .error m => .error m
      | .ok error => .error (lit "Contradiction analysis failed: " ++ renderTemplate error.detail)
    else
      match response.json with
      | .error m => .error m
      | .ok body => .ok body.value

/-! ## App.jsx -/

/-- The `useState` cells of `App`. -/
structure RunState where
  files : List File
  extractedData : List StudyRecord
  analysisResult : Option SynthesisResult
  loading : Bool
  error : Option JSString
  deriving DecidableEq

/-- The state `App` mounts with. -/
def initialState : RunState :=
  { files := [], extractedData := [], analysisResult := none, loading := false, error := none }

/-- What a run does besides setting state: calls of the two service functions
and `console.error` lines, in order. -/
inductive Event where
  | extractCall (file : File)
  | analyzeCall (studies : List StudyRecord)
  | consoleError (message : JSString)
  deriving DecidableEq

/-- A state together with the events so far. -/
structure Run where
  state : RunState
  log : List Event

/-- `handleFileChange`: a new selection resets records, analysis and error. -/
def handleFileChange (selected : List File) (s : RunState) : RunState :=
  { s with files := selected, extractedData := [], analysisResult := none, error := none }

/-- The message set when `handleAnalyze` is called without files. -/
def uploadMessage : JSString := lit "Please upload at least one PDF file."

/-- The message set when an extraction call throws. -/
def extractFailedMessage : JSString :=
  lit "Failed to extract data from one or more files. Check console for details."

/-- The analysis object set for a single extracted study. -/
def singleStudyResult : SynthesisResult :=
  { consensus_summary := some (lit "Only one study uploaded. No contradiction analysis was performed."),
    contradiction_alert := some (lit "N/A - Single Study"),
    strength_of_evidence := some (lit "Insufficient Comparative Data"),
    forest_plot_data := none,
    outcome_map_data := none }

/-- Step 1 of `handleAnalyze`, the `for (const file of files)` loop: `i` is the
number of calls already made, `extracted` the local array. -/
def extractLoop (net : Network) : List File → Nat → List StudyRecord → Run → List StudyRecord × Run
  | [], _, extracted, r => (extracted, r)
  | file :: rest, i, extracted, r =>
    match extractTrialData net i file with
    | .ok data =>
      extractLoop net rest (i + 1) (extracted ++ [data])
        { r with log := r.log ++ [.extractCall file] }
    | .error message =>
      extractLoop net rest (i + 1) extracted
        { state := { r.state with error := some extractFailedMessage },
          log := r.log ++ [.extractCall file, .consoleError message] }

/-- Step 2 of `handleAnalyze`, on the finished local array `extracted`. -/
def analyzeStep (net : Network) (extracted : List StudyRecord) (r : Run) : Run :=
  if extracted.length > 1 then
    match analyzeContradiction net extracted with
    | .ok analysis =>
      { state := { r.state with analysisResult := some analysis },
        log := r.log ++ [.analyzeCall extracted] }
    | .error message =>
      { state := { r.state with
                   error := some (lit "Contradiction analysis failed: " ++ message) },
        log := r.log ++ [.analyzeCall extracted, .consoleError message] }
  else if extracted.length = 1 then
    { r with state := { r.state with analysisResult := some singleStudyResult } }
  else r

/-- `handleAnalyze`, run to completion from state `s` against `net`: the final
state and the events of the run. -/
def handleAnalyze (net : Network) (s : RunState) : Run :=
  if s.files.length = 0 then
    { state := { s with error := some uploadMessage }, log := [] }
  else
    let start : Run :=
      { state := { s with loading := true, error := none, extractedData := [],
                          analysisResult := none },
        log := [] }
    let looped := extractLoop net s.files 0 [] start
    let published : Run :=
      { looped.2 with state := { looped.2.state with extractedData := looped.1 } }
    let analyzed := analyzeStep net looped.1 published
    { analyzed with state := { analyzed.state with loading := false } }

/-- The workflow phase a state shows.  The source keeps no phase variable: a
run in progress is `loading`, a finished run with an analysis attached is
done, a finished run with only an error message has failed. -/
inductive Phase where
  | Idle
  | Running
  | Done
  | Error
  deriving DecidableEq

/-- The phase of a state. -/
def RunState.phase (s : RunState) : Phase :=
  if s.loading then .Running
  else if s.analysisResult.isSome then .Done
  else if s.error.isSome then .Error
  else .Idle

/-- The states `App` can be in between events: from the mount state, by file
selections and completed runs. -/
inductive Reachable : RunState → Prop where
  | mount : Reachable initialState
  | fileChange (selected : List File) (s : RunState) :
      Reachable s → Reachable (handleFileChange selected s)
  | analyze (net : Network) (s : RunState) :
      Reachable s → Reachable (handleAnalyze net s).state

/-! ## Result shaping: ResultsTable.jsx, ForestPlot.jsx, OutcomeMap.jsx -/

/-- A `TypeError` thrown by a property access or method call on `undefined`. -/
inductive Thrown where
  | typeError
  deriving DecidableEq

/-- The delimiter of `strength_of_evidence`. -/
def dueTo : JSString := lit ", due to"

/-- The justification shown when the delimiter is absent. -/
def fallbackJustification : JSString := lit "Summary justification not available."

/-- `getStrengthTextColor(strength)`: the Tailwind text colour of a strength
label (`none` is `undefined`). -/
def getStrengthTextColor (toLowerCase : JSString → JSString) (strength : Option JSString) :
    String :=
  match strength with
  | none => "text-gray-400"
  | some strength =>
    if !truthy strength then "text-gray-400"
    else
      let lower := toLowerCase strength
      if includes (lit "strong") lower then "text-teal-400"
      else if includes (lit "moderate") lower then "text-yellow-400"
      else if includes (lit "weak") lower || includes (lit "conflicting") lower ||
          includes (lit "contradiction") lower || includes (lit "insufficient") lower then
        "text-red-400"
      else "text-indigo-300"

/-- `analysisResult?.strength_of_evidence || "Analyzing..."`. -/
def strengthAndJustification (analysisResult : Option SynthesisResult) : JSString :=
  match analysisResult with
  | none => lit "Analyzing..."
  | some result =>
    match result.strength_of_evidence with
    | none => lit "Analyzing..."
    | some s => if truthy s then s else lit "Analyzing..."

/-- `strengthAndJustification.split(', due to')`. -/
def strengthParts (analysisResult : Option SynthesisResult) : List JSString :=
  split dueTo (strengthAndJustification analysisResult)

/-- The first element of the destructured array (`undefined` when empty). -/
def strengthText (analysisResult : Option SynthesisResult) : Option JSString :=
  (strengthParts analysisResult).head?

/-- The rest of the destructured array. -/
def justificationParts (analysisResult : Option SynthesisResult) : List JSString :=
  (strengthParts analysisResult).tail

/-- The `justification` constant of `ResultsTable`. -/
def justification (analysisResult : Option SynthesisResult) : JSString :=
  if (justificationParts analysisResult).length > 0 then
    trim (join dueTo (justificationParts analysisResult))
  else fallbackJustification

/-- The label shown in the strength panel, `strengthText.trim()`. -/
def strengthLabel (analysisResult : Option SynthesisResult) : Except Thrown JSString :=
  match strengthText analysisResult with
  | none => .error .typeError
  | some text => .ok (trim text)

/-- The class of the strength panel, `getStrengthTextColor(strengthText.trim())`. -/
def strengthColor (toLowerCase : JSString → JSString) (analysisResult : Option SynthesisResult) :
    Except Thrown String :=
  match strengthLabel analysisResult with
  | .error e => .error e
  | .ok label => .ok (getStrengthTextColor toLowerCase (some label))

/-- The risk-of-bias line, `analysisResult?.contradiction_alert || "..."`. -/
def riskAlert (analysisResult : Option SynthesisResult) : JSString :=
  match analysisResult with
  | none => lit "..."
  | some result =>
    match result.contradiction_alert with
    | none => lit "..."
    | some a => if truthy a then a else lit "..."

/-- The consensus-statement line,
`analysisResult?.contradiction_alert.includes("N/A") ? ... : ...`: the optional
chain stops only at an absent `analysisResult`. -/
def consensusStatement (analysisResult : Option SynthesisResult) : Except Thrown String :=
  match analysisResult with
  | none => .ok "Conflict analysis requires further data inspection."
  | some result =>
    match result.contradiction_alert with
    | none => .error .typeError
    | some alert =>
      if includes (lit "N/A") alert then .ok "No conflict detected in the primary outcomes."
      else .ok "Conflict analysis requires further data inspection."

/-- One element of `chartData`. -/
structure ChartDatum where
  study_id : Option JSString
  index : Nat
  estimate : Option ℚ
  ci_range : Option ℚ × Option ℚ
  concise_label : JSString
  deriving DecidableEq

/-- `item.study_id.split(' ')[0] + ' Trial'` on a string `study_id`. -/
def firstPieceTrial (study_id : JSString) : JSString :=
  match (split (lit " ") study_id).head? with
  | some piece => piece ++ lit " Trial"
  | none => lit "undefined" ++ lit " Trial"

/-- The `concise_label` of a chart element. -/
def conciseLabel (study_id : Option JSString) : Except Thrown JSString :=
  match study_id with
  | none => .error .typeError
  | some id => if id.length > 20 then .ok (firstPieceTrial id) else .ok id

/-- `data.map((item, index) => ...)` of `ForestPlot`, from index `index` on. -/
def chartData : List EffectPoint → Nat → Except Thrown (List ChartDatum)
  | [], _ => .ok []
  | item :: rest, index =>
    match conciseLabel item.study_id with
    | .error e => .error e
    | .ok label =>
      match chartData rest (index + 1) with
      | .error e => .error e
      | .ok ds =>
        .ok ({ study_id := item.study_id, index := index, estimate := item.effect_estimate,
               ci_range := (item.ci_lower, item.ci_upper), concise_label := label } :: ds)

/-- What `ForestPlot` renders: the "data is missing" paragraph or the chart. -/
inductive ForestPlotView where
  | missing
  | chart (data : List ChartDatum)
  deriving DecidableEq

/-- The `ForestPlot` component on its `data` property. -/
def ForestPlot (data : Option (List EffectPoint)) : Except Thrown ForestPlotView :=
  match data with
  | none => .ok .missing
  | some points =>
    if points.length = 0 then .ok .missing
    else
      match chartData points 0 with
      | .error e => .error e
      | .ok ds => .ok (.chart ds)

/-- The object `getEffectStyles` returns. -/
structure EffectStyles where
  bg : String
  text : String
  icon : String
  deriving DecidableEq

/-- Styles of a beneficial effect. -/
def benefitStyles : EffectStyles :=
  { bg := "bg-teal-700/50 border-teal-500", text := "text-teal-300", icon := "↑" }

/-- Styles of a harmful effect. -/
def harmStyles : EffectStyles :=
  { bg := "bg-red-900/50 border-red-700", text := "text-red-300", icon := "↓" }

/-- Styles of a neutral effect or no effect. -/
def neutralStyles : EffectStyles :=
  { bg := "bg-gray-700/50 border-gray-600", text := "text-gray-400", icon := "—" }

/-- `getEffectStyles(effect)` (`none` is `undefined`, on which
`effect.toLowerCase()` throws). -/
def getEffectStyles (toLowerCase : JSString → JSString) (effect : Option JSString) :
    Except Thrown EffectStyles :=
  match effect with
  | none => .error .typeError
  | some effect =>
    let lowerEffect := toLowerCase effect
    if includes (lit "benefit") lowerEffect then .ok benefitStyles
    else if includes (lit "harm") lowerEffect then .ok harmStyles
    else .ok neutralStyles

/-- The label of a card:
`outcome_label.length > 30 ? outcome_label.substring(0, 30) + '...' : outcome_label`. -/
def displayLabel (outcome_label : Option JSString) : Except Thrown JSString :=
  match outcome_label with
  | none => .error .typeError
  | some label =>
    if label.length > 30 then .ok (substring0 30 label ++ lit "...") else .ok label

/-- One card of the outcome map. -/
structure Card where
  styles : EffectStyles
  label : JSString
  study_id : Option JSString
  effect_direction : Option JSString
  deriving DecidableEq

/-- The body of `data.map((item, index) => ...)` of `OutcomeMap`. -/
def outcomeCard (toLowerCase : JSString → JSString) (item : OutcomeEntry) : Except Thrown Card :=
  match getEffectStyles toLowerCase item.effect_direction with
  | .error e => .error e
  | .ok styles =>
    match displayLabel item.outcome_label with
    | .error e => .error e
    | .ok label =>
      .ok { styles := styles, label := label, study_id := item.study_id,
            effect_direction := item.effect_direction }

/-- The cards of `OutcomeMap`, in order. -/
def outcomeCards (toLowerCase : JSString → JSString) : List OutcomeEntry → Except Thrown (List Card)
  | [] => .ok []
  | item :: rest =>
    match outcomeCard toLowerCase item with
    | .error e => .error e
    | .ok card =>
      match outcomeCards toLowerCase rest with
      | .error e => .error e
      | .ok cards => .ok (card :: cards)

/-- What `OutcomeMap` renders: the "data is missing" paragraph or the cards. -/
inductive OutcomeMapView where
  | missing
  | cards (cards : List Card)
  deriving DecidableEq

/-- The `OutcomeMap` component on its `data` property. -/
def OutcomeMap (toLowerCase : JSString → JSString) (data : Option (List OutcomeEntry)) :
    Except Thrown OutcomeMapView :=
  match data with
  | none => .ok .missing
  | some entries =>
    if entries.length = 0 then .ok .missing
    else
      match outcomeCards toLowerCase entries with
      | .error e => .error e
      | .ok cs => .ok (.cards cs)

/-! ## Specification-side notions for the controller -/

/-- The successfully extracted records of a run over `files`, in submission
order: the results of the extraction calls that do not throw. -/
def successfulRecords (net : Network) (files : List File) : List StudyRecord :=
  files.enum.filterMap fun p => (extractTrialData net p.1 p.2).toOption

/-- Some extraction call of a run over `files` throws. -/
def someExtractionFailed (net : Network) (files : List File) : Bool :=
  files.enum.any fun p => !(extractTrialData net p.1 p.2).toBool

/-- The arguments of the calls of `analyzeContradiction` in a log, in order. -/
def analyzeCalls (log : List Event) : List (List StudyRecord) :=
  log.filterMap fun e =>
    match e with
    | .analyzeCall studies => some studies
    | _ => none

/-- The files passed to `extractTrialData` in a log, in order. -/
def extractCalls (log : List Event) : List File :=
  log.filterMap fun e =>
    match e with
    | .extractCall file => some file
    | _ => none

/-- The state after Step 1 of a run that passed the guard: the successful
records published, the loop's error message if a call threw. -/
def publishedState (net : Network) (s : RunState) : RunState :=
  { files := s.files,
    extractedData := successfulRecords net s.files,
    analysisResult := none,
    loading := true,
    error := if someExtractionFailed net s.files then some extractFailedMessage else none }

/-! ## Sample inputs -/

/-- A record with only its `study_id`. -/
def recordFor (name : JSString) : StudyRecord :=
  { study_id := some name, population := none, intervention := none, comparator := none,
    outcome := none }

/-- A JSON object without any of the record fields, read as a record. -/
def emptyRecord : StudyRecord :=
  { study_id := none, population := none, intervention := none, comparator := none,
    outcome := none }

/-- A JSON object without any of the analysis fields, read as an analysis. -/
def emptyResult : SynthesisResult :=
  { consensus_summary := none, contradiction_alert := none, strength_of_evidence := none,
    forest_plot_data := none, outcome_map_data := none }

/-- A `200` response with body `v`. -/
def okResponse {α : Type} (v : α) : Response α :=
  { ok := true, json := .ok { value := v, detail := none } }

/-- A non-`200` response with body `{detail: d}`, which read as an `α` is `v`. -/
def failResponse {α : Type} (v : α) (d : JSString) : Response α :=
  { ok := false, json := .ok { value := v, detail := some d } }

/-- A first sample file. -/
def fileA : File := { name := lit "a.pdf", content := [1] }

/-- A second sample file. -/
def fileB : File := { name := lit "b.pdf", content := [2] }

/-- A third sample file. -/
def fileC : File := { name := lit "c.pdf", content := [3] }

/-- A sample analysis returned by the service. -/
def sampleResult : SynthesisResult :=
  { consensus_summary := some (lit "Both trials agree."),
    contradiction_alert := some (lit "N/A"),
    strength_of_evidence := some (lit "Strong, due to consistent direction across 4 trials"),
    forest_plot_data := some [],
    outcome_map_data := some [] }

/-- A service that answers every request with `200`. -/
def serviceUp : Network :=
  { extract := fun _ file => .ok (okResponse (recordFor file.name)),
    contradict := fun _ => .ok (okResponse sampleResult) }

/-- A service whose extraction works and whose synthesis endpoint answers `500`
with `{detail: "model overloaded"}`. -/
def serviceSynthesisDown : Network :=
  { extract := fun _ file => .ok (okResponse (recordFor file.name)),
    contradict := fun _ => .ok (failResponse emptyResult (lit "model overloaded")) }

/-- A service that extracts the first document of a run only. -/
def serviceFirstOnly : Network :=
  { extract := fun i file =>
      if i = 0 then .ok (okResponse (recordFor file.name))
      else .ok (failResponse emptyRecord (lit "unreadable PDF")),
    contradict := fun _ => .ok (okResponse sampleResult) }

/-- A service whose extraction endpoint answers `500` to every request. -/
def serviceDown : Network :=
  { extract := fun _ _ => .ok (failResponse emptyRecord (lit "unreadable PDF")),
    contradict := fun _ => .ok (okResponse sampleResult) }

/-- The state after selecting two files on a fresh page. -/
def selectedAB : RunState := handleFileChange [fileA, fileB] initialState

/-- An analysis whose strength carries a justification. -/
def strongResult : SynthesisResult :=
  { emptyResult with
    strength_of_evidence := some (lit "Strong, due to consistent direction across 4 trials") }

/-- An analysis whose strength is a bare label. -/
def weakResult : SynthesisResult :=
  { emptyResult with strength_of_evidence := some (lit "Weak") }

/-- An analysis whose strength starts with the delimiter. -/
def bareJustificationResult : SynthesisResult :=
  { emptyResult with strength_of_evidence := some (lit ", due to chance") }

/-! ## Specification-side notions for result shaping -/

/-- The strength classes of the specification. -/
inductive StrengthClass where
  | Strong
  | Moderate
  | Weak
  | Unclassified
  deriving DecidableEq

/-- The colour `getStrengthTextColor` gives each class: teal for strong,
yellow for moderate, red for weak, indigo otherwise. -/
def StrengthClass.textColor : StrengthClass → String
  | .Strong => "text-teal-400"
  | .Moderate => "text-yellow-400"
  | .Weak => "text-red-400"
  | .Unclassified => "text-indigo-300"

/-- The strength class of a label as the specification words it: the first of
the keyword groups that the lowercased label contains. -/
def specStrengthClass (toLowerCase : JSString → JSString) (label : JSString) : StrengthClass :=
  if lit "strong" <:+: toLowerCase label then .Strong
  else if lit "moderate" <:+: toLowerCase label then .Moderate
  else if lit "weak" <:+: toLowerCase label ∨ lit "conflicting" <:+: toLowerCase label ∨
      lit "contradiction" <:+: toLowerCase label ∨ lit "insufficient" <:+: toLowerCase label then
    .Weak
  else .Unclassified

/-- The effect classes of the specification. -/
inductive EffectClass where
  | Benefit
  | Harm
  | Neutral
  deriving DecidableEq

/-- The styles `getEffectStyles` gives each class. -/
def EffectClass.styles : EffectClass → EffectStyles
  | .Benefit => benefitStyles
  | .Harm => harmStyles
  | .Neutral => neutralStyles

/-- The effect class of an `effect_direction` as the specification words it. -/
def specEffectClass (toLowerCase : JSString → JSString) (effect : JSString) : EffectClass :=
  if lit "benefit" <:+: toLowerCase effect then .Benefit
  else if lit "harm" <:+: toLowerCase effect then .Harm
  else .Neutral

/-- The first whitespace-delimited token of a string: its first maximal run of
code units that are not white space. -/
def firstWhitespaceToken (s : JSString) : JSString :=
  (s.dropWhile isWhiteSpace).takeWhile fun c => !isWhiteSpace c

/-- The concise label as the specification words it. -/
def specConciseLabel (study_id : JSString) : JSString :=
  if study_id.length > 20 then firstWhitespaceToken study_id ++ lit " Trial" else study_id

/-- A 27-unit `study_id` whose two words are separated by a tab. -/
def tabbedStudyId : JSString := lit "NCT01234567\tPhase-III-Study"

/-- A 25-unit `study_id` with a space. -/
def longStudyId : JSString := lit "CARDIO-PREVENT study 2021"

/-- An 18-unit `study_id`. -/
def shortStudyId : JSString := lit "CARDIO-PREVENT 021"

/-- A forest-plot point with every field. -/
def pointA : EffectPoint :=
  { study_id := some (lit "CARDIO-PREVENT study 2021"), effect_estimate := some (17 / 20),
    ci_lower := some (7 / 10), ci_upper := some (21 / 20) }

/-- A forest-plot point whose `study_id` is missing. -/
def pointNoId : EffectPoint :=
  { study_id := none, effect_estimate := some (17 / 20), ci_lower := some (7 / 10),
    ci_upper := some (21 / 20) }

/-- An outcome entry with every field. -/
def entryA : OutcomeEntry :=
  { study_id := some (lit "CARDIO-PREVENT study 2021"),
    outcome_label := some (lit "All-cause mortality"),
    effect_direction := some (lit "Unclear") }

/-- An outcome entry whose `effect_direction` is missing. -/
def entryNoDirection : OutcomeEntry :=
  { study_id := some (lit "CARDIO-PREVENT study 2021"),
    outcome_label := some (lit "All-cause mortality"),
    effect_direction := none }

/-- An outcome entry whose `outcome_label` is missing. -/
def entryNoLabel : OutcomeEntry :=
  { study_id := some (lit "CARDIO-PREVENT study 2021"),
    outcome_label := none,
    effect_direction := some (lit "Net Harm observed") }

/-- The state after selecting one file on a fresh page. -/
def selectedA : RunState := handleFileChange [fileA] initialState

/-- The state after selecting three files on a fresh page. -/
def selectedABC : RunState := handleFileChange [fileA, fileB, fileC] initialState

/-- A service that fails to extract the second document of a run only. -/
def serviceSecondFails : Network :=
  { extract := fun i file =>
      if i = 1 then .ok (failResponse emptyRecord (lit "unreadable PDF"))
      else .ok (okResponse (recordFor file.name)),
    contradict := fun _ => .ok (okResponse sampleResult) }

/-! ## The extraction loop -/

theorem extractLoop_fst (net : Network) (files : List File) :
    ∀ (i : Nat) (acc : List StudyRecord) (r : Run),
      (extractLoop net files i acc r).1 =
        acc ++ (files.enumFrom i).filterMap fun p => (extractTrialData net p.1 p.2).toOption := by
  induction files with
  | nil => intro i acc r; simp [extractLoop]
  | cons file rest ih =>
    intro i acc r
    simp only [extractLoop]
    cases h : extractTrialData net i file <;>
      simp [ih, h, List.enumFrom, Except.toOption]

theorem extractLoop_state (net : Network) (files : List File) :
    ∀ (i : Nat) (acc : List StudyRecord) (r : Run),
      (extractLoop net files i acc r).2.state =
        { r.state with
          error :=
            if (files.enumFrom i).any fun p => !(extractTrialData net p.1 p.2).toBool then
              some extractFailedMessage
            else r.state.error } := by
  induction files with
  | nil => intro i acc r; simp [extractLoop]
  | cons file rest ih =>
    intro i acc r
    simp only [extractLoop]
    cases h : extractTrialData net i file <;>
      (rw [ih]; simp only [List.enumFrom, List.any_cons, h, Except.toBool]; first | rfl | simp)

theorem analyzeCalls_append (l₁ l₂ : List Event) :
    analyzeCalls (l₁ ++ l₂) = analyzeCalls l₁ ++ analyzeCalls l₂ := by
  simp [analyzeCalls]

theorem extractLoop_analyzeCalls (net : Network) (files : List File) :
    ∀ (i : Nat) (acc : List StudyRecord) (r : Run),
      analyzeCalls (extractLoop net files i acc r).2.log = analyzeCalls r.log := by
  induction files with
  | nil => intro i acc r; simp [extractLoop]
  | cons file rest ih =>
    intro i acc r
    simp only [extractLoop]
    cases h : extractTrialData net i file <;>
      (rw [ih, analyzeCalls_append]; simp [analyzeCalls])

theorem successfulRecords_length_le (net : Network) (files : List File) :
    (successfulRecords net files).length ≤ files.length := by
  unfold successfulRecords
  exact (List.length_filterMap_le _ _).trans (by simp)

/-! ## The run as a whole -/

theorem analyzeStep_state (net : Network) (extracted : List StudyRecord) (r : Run) :
    (analyzeStep net extracted r).state =
      (analyzeStep net extracted { state := r.state, log := [] }).state := by
  unfold analyzeStep
  split_ifs
  · cases analyzeContradiction net extracted <;> rfl
  · rfl
  · rfl

theorem analyzeStep_analyzeCalls (net : Network) (extracted : List StudyRecord) (r : Run) :
    analyzeCalls (analyzeStep net extracted r).log =
      analyzeCalls r.log ++ (if extracted.length > 1 then [extracted] else []) := by
  unfold analyzeStep
  split_ifs
  · cases analyzeContradiction net extracted <;> simp [analyzeCalls_append, analyzeCalls]
  · simp
  · simp

theorem handleAnalyze_state (net : Network) (s : RunState) (h : s.files ≠ []) :
    (handleAnalyze net s).state =
      { (analyzeStep net (successfulRecords net s.files)
            { state := publishedState net s, log := [] }).state with loading := false } := by
  have hlen : ¬ s.files.length = 0 := by simpa using h
  unfold handleAnalyze
  simp only [hlen, if_false]
  rw [analyzeStep_state, extractLoop_fst, extractLoop_state]
  simp [publishedState, successfulRecords, someExtractionFailed, List.enum]

theorem handleAnalyze_analyzeCalls (net : Network) (s : RunState) :
    analyzeCalls (handleAnalyze net s).log =
      if (successfulRecords net s.files).length > 1 then [successfulRecords net s.files]
      else [] := by
  unfold handleAnalyze
  by_cases hlen : s.files.length = 0
  · have hnil : s.files = [] := by simpa using hlen
    simp [hnil, successfulRecords, analyzeCalls]
  · simp only [hlen, if_false]
    rw [analyzeStep_analyzeCalls, extractLoop_analyzeCalls, extractLoop_fst]
    simp [successfulRecords, List.enum, analyzeCalls]

/-- The guard of `handleAnalyze` keeps this: without files there are no
records. -/
theorem reachable_records_of_no_files (s : RunState) (h : Reachable s) :
    s.files = [] → s.extractedData = [] := by
  induction h with
  | mount => intro _; rfl
  | fileChange selected s _ _ => intro _; rfl
  | analyze net s _ ih =>
    intro hf
    by_cases hlen : s.files.length = 0
    · have hnil : s.files = [] := by simpa using hlen
      simpa [handleAnalyze, hlen] using ih hnil
    · have hne : s.files ≠ [] := by simpa using hlen
      rw [handleAnalyze_state net s hne] at hf
      have : s.files = [] := by
        unfold analyzeStep at hf
        split_ifs at hf
        · cases hc : analyzeContradiction net (successfulRecords net s.files) <;>
            simpa [hc, publishedState] using hf
        · simpa [publishedState] using hf
        · simpa [publishedState] using hf
      exact absurd this hne

theorem successfulRecords_of_all_ok (net : Network) (files : List File)
    (hall : ∀ (i : Nat) (hi : i < files.length), ∃ d, extractTrialData net i files[i] = .ok d) :
    (successfulRecords net files).map some =
      files.enum.map fun p => (extractTrialData net p.1 p.2).toOption := by
  unfold successfulRecords
  have key : ∀ p ∈ files.enum, ∃ d, extractTrialData net p.1 p.2 = .ok d :=
    List.forall_mem_enum.mpr hall
  generalize files.enum = l at key
  induction l with
  | nil => rfl
  | cons p rest ih =>
    obtain ⟨d, hd⟩ := key p (List.mem_cons_self _ _)
    have ih2 := ih fun q hq => key q (List.mem_cons_of_mem _ hq)
    have hd2 : (fun q : Nat × File => (extractTrialData net q.1 q.2).toOption) p = some d := by
      simp only [hd]; rfl
    rw [List.filterMap_cons_some (f := fun q : Nat × File =>
      (extractTrialData net q.1 q.2).toOption) hd2, List.map_cons, List.map_cons, ih2]
    exact congrArg (· :: _) hd2.symm

theorem successfulRecords_of_all_failed (net : Network) (files : List File)
    (hall : ∀ (i : Nat) (hi : i < files.length), ∃ m, extractTrialData net i files[i] = .error m) :
    successfulRecords net files = [] := by
  unfold successfulRecords
  rw [List.filterMap_eq_nil_iff]
  have key : ∀ p ∈ files.enum, ∃ m, extractTrialData net p.1 p.2 = .error m :=
    List.forall_mem_enum.mpr hall
  intro p hp
  obtain ⟨m, hm⟩ := key p hp
  simp [hm, Except.toOption]

theorem someExtractionFailed_of_all_failed (net : Network) (files : List File)
    (hne : files ≠ [])
    (hall : ∀ (i : Nat) (hi : i < files.length), ∃ m, extractTrialData net i files[i] = .error m) :
    someExtractionFailed net files = true := by
  cases files with
  | nil => exact absurd rfl hne
  | cons file rest =>
    obtain ⟨m, hm⟩ := hall 0 (by simp)
    have hm0 : extractTrialData net 0 file = .error m := by simpa using hm
    simp [someExtractionFailed, List.enum_cons, hm0, Except.toBool]

/-! ## The controller's contracts -/

theorem reachable_selectedAB : Reachable selectedAB :=
  Reachable.fileChange _ _ Reachable.mount

/-- C1.  In every state the page can be in, and whatever each extraction call
and the synthesis call answer, the record list published by `handleAnalyze` is
the list of successfully extracted records in the submission order of their
documents (failed documents skipped, a failed synthesis call changing nothing);
when every extraction succeeds it has the length of the document list and its
`i`-th record is the result of the `i`-th call. -/
theorem handleAnalyze_publishes_successes (net : Network) (s : RunState) (hs : Reachable s) :
    (handleAnalyze net s).state.extractedData = successfulRecords net s.files ∧
    ((∀ (i : Nat) (hi : i < s.files.length), ∃ d, extractTrialData net i s.files[i] = .ok d) →
      (handleAnalyze net s).state.extractedData.length = s.files.length ∧
      ∀ (i : Nat) (hi : i < s.files.length)
        (hj : i < (handleAnalyze net s).state.extractedData.length),
        extractTrialData net i s.files[i] = .ok (handleAnalyze net s).state.extractedData[i]) := by
  have hrec : (handleAnalyze net s).state.extractedData = successfulRecords net s.files := by
    by_cases hlen : s.files.length = 0
    · have hnil : s.files = [] := by simpa using hlen
      have h0 := reachable_records_of_no_files s hs hnil
      simp [handleAnalyze, hnil, h0, successfulRecords]
    · have hne : s.files ≠ [] := by simpa using hlen
      rw [handleAnalyze_state net s hne]
      unfold analyzeStep
      split_ifs
      · cases hc : analyzeContradiction net (successfulRecords net s.files) <;> rfl
      · rfl
      · rfl
  refine ⟨hrec, fun hall => ?_⟩
  have hmap := successfulRecords_of_all_ok net s.files hall
  rw [hrec]
  have hlength : (successfulRecords net s.files).length = s.files.length := by
    have := congrArg List.length hmap
    simpa using this
  refine ⟨hlength, fun i hi hj => ?_⟩
  have hget : some (successfulRecords net s.files)[i] =
      (extractTrialData net i s.files[i]).toOption := by
    have h1 : ((successfulRecords net s.files).map some)[i]? =
        (s.files.enum.map fun p => (extractTrialData net p.1 p.2).toOption)[i]? := by
      rw [hmap]
    simpa [List.getElem?_map, List.getElem?_enum, List.getElem?_eq_getElem hi,
      List.getElem?_eq_getElem (hlength ▸ hi)] using h1
  obtain ⟨d, hd⟩ := hall i hi
  rw [hd] at hget ⊢
  simp only [Except.toOption, Option.some.injEq] at hget
  rw [hget]

/-- C1 at two files that both extract while synthesis answers `500`: both
records are published, in order. -/
theorem handleAnalyze_publishes_successes_witness :
    (handleAnalyze serviceSynthesisDown selectedAB).state.extractedData =
        [recordFor (lit "a.pdf"), recordFor (lit "b.pdf")] ∧
      (handleAnalyze serviceSynthesisDown selectedAB).state.extractedData.length =
        selectedAB.files.length :=
  have h := handleAnalyze_publishes_successes serviceSynthesisDown selectedAB reachable_selectedAB
  ⟨h.1.trans (by decide),
   (h.2 (fun i hi =>
      match i, hi with
      | 0, _ => ⟨_, rfl⟩
      | 1, _ => ⟨_, rfl⟩)).1⟩

/-- C2.  When at least two documents are extracted, `analyzeContradiction` is
called exactly once, on the full list of accumulated records; if that call
returns, the run ends done with the returned analysis attached as it is, and
the only error message left, if any, is the one of the extraction loop. -/
theorem handleAnalyze_synthesis_once (net : Network) (s : RunState)
    (h2 : 2 ≤ (successfulRecords net s.files).length) :
    analyzeCalls (handleAnalyze net s).log = [(handleAnalyze net s).state.extractedData] ∧
    (handleAnalyze net s).state.extractedData = successfulRecords net s.files ∧
    ∀ result, analyzeContradiction net (successfulRecords net s.files) = .ok result →
      (handleAnalyze net s).state.analysisResult = some result ∧
      (handleAnalyze net s).state.phase = .Done ∧
      (handleAnalyze net s).state.error =
        (if someExtractionFailed net s.files then some extractFailedMessage else none) := by
  have hne : s.files ≠ [] := by
    intro hnil
    rw [hnil] at h2
    simp [successfulRecords] at h2
  have hgt : (successfulRecords net s.files).length > 1 := h2
  have hstate := handleAnalyze_state net s hne
  have hcalls := handleAnalyze_analyzeCalls net s
  rw [if_pos hgt] at hcalls
  unfold analyzeStep at hstate
  rw [if_pos hgt] at hstate
  have hdata : (handleAnalyze net s).state.extractedData = successfulRecords net s.files := by
    rw [hstate]
    cases analyzeContradiction net (successfulRecords net s.files) <;> rfl
  refine ⟨by rw [hcalls, hdata], hdata, fun result hres => ?_⟩
  rw [hres] at hstate
  rw [hstate]
  simp [publishedState, RunState.phase]

/-- C2 at two files that both extract, with a synthesis that answers `200`. -/
theorem handleAnalyze_synthesis_once_witness :
    analyzeCalls (handleAnalyze serviceUp selectedAB).log =
        [[recordFor (lit "a.pdf"), recordFor (lit "b.pdf")]] ∧
      (handleAnalyze serviceUp selectedAB).state.analysisResult = some sampleResult ∧
      (handleAnalyze serviceUp selectedAB).state.error = none :=
  have h := handleAnalyze_synthesis_once serviceUp selectedAB (by decide)
  have h3 := h.2.2 sampleResult rfl
  ⟨h.1.trans (by decide), h3.1, h3.2.2.trans (by decide)⟩

/-- C3.  When exactly one document is extracted, the run ends done without any
call of `analyzeContradiction`; the attached analysis carries the three fixed
texts and no forest-plot or outcome-map sequence, so that both visualisations
have nothing to show. -/
theorem handleAnalyze_single_study (net : Network) (s : RunState)
    (h1 : (successfulRecords net s.files).length = 1) :
    (handleAnalyze net s).state.phase = .Done ∧
    analyzeCalls (handleAnalyze net s).log = [] ∧
    (handleAnalyze net s).state.analysisResult =
      some { consensus_summary :=
               some (lit "Only one study uploaded. No contradiction analysis was performed."),
             contradiction_alert := some (lit "N/A - Single Study"),
             strength_of_evidence := some (lit "Insufficient Comparative Data"),
             forest_plot_data := none,
             outcome_map_data := none } ∧
    (∀ result, (handleAnalyze net s).state.analysisResult = some result →
      result.forest_plot_data.getD [] = [] ∧ result.outcome_map_data.getD [] = [] ∧
      ForestPlot result.forest_plot_data = .ok .missing ∧
      ∀ toLowerCase, OutcomeMap toLowerCase result.outcome_map_data = .ok .missing) := by
  have hne : s.files ≠ [] := by
    intro hnil
    rw [hnil] at h1
    simp [successfulRecords] at h1
  have hstate := handleAnalyze_state net s hne
  have hcalls := handleAnalyze_analyzeCalls net s
  have hgt : ¬ (successfulRecords net s.files).length > 1 := by omega
  rw [if_neg hgt] at hcalls
  unfold analyzeStep at hstate
  rw [if_neg hgt, if_pos h1] at hstate
  have hres : (handleAnalyze net s).state.analysisResult = some singleStudyResult := by
    rw [hstate]
  refine ⟨?_, hcalls, hres, fun result hr => ?_⟩
  · rw [hstate]; simp [RunState.phase]
  · rw [hres] at hr
    cases hr
    exact ⟨rfl, rfl, rfl, fun _ => rfl⟩

/-- C3 at two files of which the service extracts the first only. -/
theorem handleAnalyze_single_study_witness :
    (handleAnalyze serviceFirstOnly selectedAB).state.phase = .Done ∧
      analyzeCalls (handleAnalyze serviceFirstOnly selectedAB).log = [] ∧
      ((handleAnalyze serviceFirstOnly selectedAB).state.analysisResult.bind
        fun r => r.contradiction_alert) = some (lit "N/A - Single Study") :=
  have h := handleAnalyze_single_study serviceFirstOnly selectedAB (by decide)
  ⟨h.1, h.2.1, by rw [h.2.2.1]; rfl⟩

/-- C4.  When the document list is not empty and every extraction call throws,
the run ends in the error phase: the loop's error message is set, the record
list is empty, no analysis is attached and `analyzeContradiction` is never
called. -/
theorem handleAnalyze_all_failed (net : Network) (s : RunState) (hne : s.files ≠ [])
    (hall : ∀ (i : Nat) (hi : i < s.files.length),
      ∃ m, extractTrialData net i s.files[i] = .error m) :
    (handleAnalyze net s).state.phase = .Error ∧
    (handleAnalyze net s).state.error = some extractFailedMessage ∧
    (handleAnalyze net s).state.extractedData = [] ∧
    (handleAnalyze net s).state.analysisResult = none ∧
    analyzeCalls (handleAnalyze net s).log = [] := by
  have hrec := successfulRecords_of_all_failed net s.files hall
  have hfail := someExtractionFailed_of_all_failed net s.files hne hall
  have hstate := handleAnalyze_state net s hne
  have hcalls := handleAnalyze_analyzeCalls net s
  rw [hrec] at hcalls
  unfold analyzeStep at hstate
  simp only [hrec, List.length_nil, gt_iff_lt, Nat.not_lt_zero, if_false, zero_ne_one,
    publishedState, hfail, if_true] at hstate
  rw [hstate]
  exact ⟨by simp [RunState.phase], rfl, rfl, rfl, by simpa using hcalls⟩

/-- C4 at two files against a service whose extraction endpoint is down. -/
theorem handleAnalyze_all_failed_witness :
    selectedAB.files ≠ [] ∧ (handleAnalyze serviceDown selectedAB).state.phase = .Error ∧
      analyzeCalls (handleAnalyze serviceDown selectedAB).log = [] :=
  have h := handleAnalyze_all_failed serviceDown selectedAB (by decide)
    (fun i hi =>
      match i, hi with
      | 0, _ => ⟨_, rfl⟩
      | 1, _ => ⟨_, rfl⟩)
  ⟨by decide, h.1, h.2.2.2.2⟩

theorem handleAnalyze_synthesis_error (net : Network) (s : RunState)
    (h2 : 2 ≤ (successfulRecords net s.files).length) (v : SynthesisResult) (d : JSString)
    (hresp : net.contradict (successfulRecords net s.files) = .ok (failResponse v d)) :
    (handleAnalyze net s).state.error =
      some (lit "Contradiction analysis failed: " ++ (lit "Contradiction analysis failed: " ++ d)) := by
  have hne : s.files ≠ [] := by
    intro hnil
    rw [hnil] at h2
    simp [successfulRecords] at h2
  have hgt : (successfulRecords net s.files).length > 1 := h2
  have hcall : analyzeContradiction net (successfulRecords net s.files) =
      .error (lit "Contradiction analysis failed: " ++ d) := by
    simp [analyzeContradiction, hresp, failResponse, renderTemplate]
  rw [handleAnalyze_state net s hne]
  unfold analyzeStep
  rw [if_pos hgt, hcall]

/-- C5, evaluated.  Two files extract and the synthesis endpoint answers `500`
with `{detail: "model overloaded"}`: the message `handleAnalyze` sets carries
the words "Contradiction analysis failed: " twice, once from
`analyzeContradiction` and once from the `catch` of `handleAnalyze`; it is not
"Contradiction analysis failed: " followed by the detail. -/
theorem handleAnalyze_synthesis_message_doubled :
    (handleAnalyze serviceSynthesisDown selectedAB).state.error =
        some (lit "Contradiction analysis failed: Contradiction analysis failed: model overloaded") ∧
      (handleAnalyze serviceSynthesisDown selectedAB).state.error ≠
        some (lit "Contradiction analysis failed: " ++ lit "model overloaded") := by
  constructor <;> decide

/-! ## String lemmas -/

theorem includes_iff (pat s : JSString) : includes pat s = true ↔ pat <:+: s := by
  induction s with
  | nil => simp [includes]
  | cons c cs ih =>
    rw [includes, Bool.or_eq_true, ih, List.isPrefixOf_iff_prefix, List.infix_cons_iff]

theorem splitGo_ne_nil (sep : JSString) (s : JSString) :
    ∀ (k : Nat) (cur : JSString), splitGo sep s k cur ≠ [] := by
  induction s with
  | nil => intro k cur; simp [splitGo]
  | cons c cs ih =>
    intro k cur
    cases k with
    | zero =>
      rw [splitGo]
      split_ifs
      · simp
      · exact ih _ _
    | succ k => rw [splitGo]; exact ih _ _

theorem splitGo_skip (sep : JSString) (s : JSString) :
    ∀ (k : Nat) (cur : JSString), splitGo sep s k cur = splitGo sep (s.drop k) 0 cur := by
  induction s with
  | nil => intro k cur; simp [splitGo]
  | cons c cs ih =>
    intro k cur
    cases k with
    | zero => rfl
    | succ k => rw [splitGo, List.drop_succ_cons]; exact ih _ _

theorem join_cons (sep x : JSString) (rest : List JSString) (h : rest ≠ []) :
    join sep (x :: rest) = x ++ sep ++ join sep rest := by
  cases rest with
  | nil => exact absurd rfl h
  | cons y ys => rfl

/-- Without an occurrence of the separator, `split` returns the string whole. -/
theorem splitGo_of_not_infix (sep : JSString) (s : JSString) :
    ∀ (cur : JSString), ¬ sep <:+: s → splitGo sep s 0 cur = [cur.reverse ++ s] := by
  induction s with
  | nil => intro cur _; simp [splitGo]
  | cons c cs ih =>
    intro cur h
    rw [List.infix_cons_iff, not_or] at h
    have hp : sep.isPrefixOf (c :: cs) = false := by
      rw [Bool.eq_false_iff]
      intro hp
      exact h.1 (List.isPrefixOf_iff_prefix.mp hp)
    rw [splitGo, hp]
    simp [ih (c :: cur) h.2]

/-- At the first occurrence of the separator, `split` cuts off what stands
before it and goes on after it. -/
theorem splitGo_first_occurrence (sep : JSString) (hsep : sep ≠ []) (after : JSString)
    (before : JSString) :
    ∀ (cur : JSString),
      (∀ j, j < before.length → ¬ sep <+: (before ++ sep ++ after).drop j) →
      splitGo sep (before ++ sep ++ after) 0 cur =
        (cur.reverse ++ before) :: splitGo sep after 0 [] := by
  induction before with
  | nil =>
    intro cur _
    cases sep with
    | nil => exact absurd rfl hsep
    | cons c sep1 =>
      have hp : (c :: sep1).isPrefixOf (c :: (sep1 ++ after)) = true := by
        rw [List.isPrefixOf_iff_prefix]
        exact ⟨after, by simp⟩
      simp only [List.nil_append, List.cons_append, splitGo, hp, if_true, List.append_nil]
      rw [splitGo_skip]
      simp
  | cons b bs ih =>
    intro cur h
    have h0 := h 0 (by simp)
    have hp : sep.isPrefixOf (b :: (bs ++ sep ++ after)) = false := by
      rw [Bool.eq_false_iff]
      intro hp
      exact h0 (by simpa using List.isPrefixOf_iff_prefix.mp hp)
    have hrest : ∀ j, j < bs.length → ¬ sep <+: (bs ++ sep ++ after).drop j := by
      intro j hj
      have := h (j + 1) (by simpa using hj)
      simpa using this
    show splitGo sep (b :: (bs ++ sep ++ after)) 0 cur = _
    rw [splitGo, hp]
    simp only [Bool.false_eq_true, if_false]
    rw [ih (b :: cur) hrest]
    simp

/-- Joining the pieces of `split` with the separator gives the string back. -/
theorem join_splitGo (sep : JSString) (hsep : sep ≠ []) (n : Nat) :
    ∀ (s cur : JSString), s.length ≤ n → join sep (splitGo sep s 0 cur) = cur.reverse ++ s := by
  induction n with
  | zero =>
    intro s cur hn
    have : s = [] := List.length_eq_zero.mp (Nat.le_zero.mp hn)
    subst this
    simp [splitGo, join]
  | succ n ih =>
    intro s cur hn
    cases s with
    | nil => simp [splitGo, join]
    | cons c cs =>
      have hcs : cs.length ≤ n := by simpa using hn
      rw [splitGo]
      split_ifs with hp
      · rw [splitGo_skip, join_cons _ _ _ (splitGo_ne_nil _ _ _ _),
          ih _ _ ((List.length_drop _ _).le.trans ((Nat.sub_le _ _).trans hcs))]
        have hpre := List.prefix_iff_eq_append.mp (List.isPrefixOf_iff_prefix.mp hp)
        cases sep with
        | nil => exact absurd rfl hsep
        | cons c1 sep1 =>
          simp only [List.length_cons, Nat.add_sub_cancel, List.drop_succ_cons,
            List.cons_append, List.cons.injEq] at hpre ⊢
          simp [hpre.1, hpre.2]
      · rw [ih _ _ hcs]
        simp

/-! ## Result shaping -/

/-- C6.  Strength parsing, for a non-empty `strength_of_evidence` string `s`.
When `s` has no ", due to", the label is `s` trimmed and the justification is
"Summary justification not available.".  When `s` is `before`, then the first
", due to", then `after`, the label is `before` trimmed and the justification
is `after` trimmed, whatever further delimiters `after` holds. -/
theorem strength_parsing (result : SynthesisResult) (s : JSString)
    (hs : result.strength_of_evidence = some s) (hne : s ≠ []) :
    (¬ lit ", due to" <:+: s →
      strengthLabel (some result) = .ok (trim s) ∧
      justification (some result) = lit "Summary justification not available.") ∧
    (∀ before after : JSString, s = before ++ lit ", due to" ++ after →
      (∀ j, j < before.length → ¬ lit ", due to" <+: s.drop j) →
      strengthLabel (some result) = .ok (trim before) ∧
      justification (some result) = trim after) := by
  have hstr : strengthAndJustification (some result) = s := by
    cases s with
    | nil => exact absurd rfl hne
    | cons c cs => simp [strengthAndJustification, hs, truthy]
  have hsep : dueTo ≠ [] := by decide
  constructor
  · intro habs
    have hparts : strengthParts (some result) = [s] := by
      unfold strengthParts split
      rw [hstr, splitGo_of_not_infix dueTo s [] habs]
      rfl
    simp [strengthLabel, strengthText, justification, justificationParts, hparts,
      fallbackJustification]
  · intro before after hs2 hfirst
    have hparts : strengthParts (some result) = before :: splitGo dueTo after 0 [] := by
      unfold strengthParts split
      rw [hstr, hs2]
      exact splitGo_first_occurrence dueTo hsep after before [] (hs2 ▸ hfirst)
    have hpos : (splitGo dueTo after 0 []).length > 0 :=
      List.length_pos.mpr (splitGo_ne_nil _ _ _ _)
    have hjoin := join_splitGo dueTo hsep after.length after [] (Nat.le_refl _)
    simp only [List.reverse_nil, List.nil_append] at hjoin
    simp [strengthLabel, strengthText, justification, justificationParts, hparts, hpos, hjoin]

/-- C6 at the two strings of the specification: "Strong, due to consistent
direction across 4 trials" and "Weak". -/
theorem strength_parsing_witness :
    (strengthLabel (some strongResult) = .ok (lit "Strong") ∧
      justification (some strongResult) = lit "consistent direction across 4 trials") ∧
    (strengthLabel (some weakResult) = .ok (lit "Weak") ∧
      justification (some weakResult) = lit "Summary justification not available.") := by
  have h1 := (strength_parsing strongResult _ rfl (by decide)).2 (lit "Strong")
    (lit " consistent direction across 4 trials") (by decide) (by decide)
  have h2 := (strength_parsing weakResult _ rfl (by decide)).1 (by decide)
  exact ⟨⟨h1.1.trans (congrArg Except.ok (by decide)), h1.2.trans (by decide)⟩,
    ⟨h2.1.trans (congrArg Except.ok (by decide)), h2.2⟩⟩

/-- C7, as the code has it.  An empty label gets `text-gray-400`, which is the
colour of none of the four classes; every other label gets the colour of its
class: Strong if its lowercase form contains "strong", else Moderate if it
contains "moderate", else Weak if it contains one of "weak", "conflicting",
"contradiction", "insufficient", else Unclassified. -/
theorem strength_classification (toLowerCase : JSString → JSString) (label : JSString) :
    getStrengthTextColor toLowerCase (some label) =
        (if label = [] then "text-gray-400"
         else (specStrengthClass toLowerCase label).textColor) ∧
      ∀ c : StrengthClass, c.textColor ≠ "text-gray-400" := by
  constructor
  · cases label with
    | nil => rfl
    | cons a as =>
      simp only [getStrengthTextColor, truthy, specStrengthClass, List.isEmpty_cons,
        Bool.not_false, Bool.not_true, Bool.false_eq_true, if_false, Bool.or_eq_true,
        includes_iff, reduceCtorEq]
      split_ifs <;> first | rfl | tauto
  · intro c
    cases c <;> decide

/-- C7 fails at the empty label, which contains no keyword: its colour is that
of no class, Unclassified included.  The panel reaches it at
`strength_of_evidence = ", due to chance"`. -/
theorem strength_classification_empty_label :
    specStrengthClass asciiToLowerCase [] = .Unclassified ∧
      getStrengthTextColor asciiToLowerCase (some []) = "text-gray-400" ∧
      (∀ c : StrengthClass, getStrengthTextColor asciiToLowerCase (some []) ≠ c.textColor) ∧
      strengthLabel (some bareJustificationResult) = .ok [] ∧
      strengthColor asciiToLowerCase (some bareJustificationResult) = .ok "text-gray-400" := by
  refine ⟨by decide, rfl, ?_, by rfl, by rfl⟩
  intro c
  cases c <;> decide

/-- C8.  For every `effect_direction` string the styles are those of Benefit
if its lowercase form contains "benefit", else of Harm if it contains "harm",
else of Neutral, so that a string containing both is Benefit; the three styles
differ.  Wherever `toLowerCase` lowers the two sample strings as it does on
ASCII, "Net Harm observed" is Harm and "No significant benefit" is Benefit. -/
theorem effect_classification (toLowerCase : JSString → JSString) (effect : JSString) :
    getEffectStyles toLowerCase (some effect) = .ok (specEffectClass toLowerCase effect).styles ∧
    (lit "benefit" <:+: toLowerCase effect → lit "harm" <:+: toLowerCase effect →
      getEffectStyles toLowerCase (some effect) = .ok EffectClass.Benefit.styles) ∧
    (∀ c d : EffectClass, c.styles = d.styles → c = d) ∧
    (toLowerCase (lit "Net Harm observed") = lit "net harm observed" →
      getEffectStyles toLowerCase (some (lit "Net Harm observed")) = .ok EffectClass.Harm.styles) ∧
    (toLowerCase (lit "No significant benefit") = lit "no significant benefit" →
      getEffectStyles toLowerCase (some (lit "No significant benefit")) =
        .ok EffectClass.Benefit.styles) := by
  have key : ∀ e : JSString,
      getEffectStyles toLowerCase (some e) = .ok (specEffectClass toLowerCase e).styles := by
    intro e
    simp only [getEffectStyles, specEffectClass, includes_iff]
    split_ifs <;> rfl
  refine ⟨key effect, ?_, ?_, ?_, ?_⟩
  · intro hb _
    rw [key, specEffectClass, if_pos hb]
  · intro c d
    cases c <;> cases d <;> decide
  · intro h
    rw [key, specEffectClass, h]
    rfl
  · intro h
    rw [key, specEffectClass, h]
    rfl

/-- C8 with the ASCII lowering, at the two strings of the specification and at
"Benefit outweighs harm". -/
theorem effect_classification_witness :
    getEffectStyles asciiToLowerCase (some (lit "Net Harm observed")) = .ok harmStyles ∧
      getEffectStyles asciiToLowerCase (some (lit "No significant benefit")) = .ok benefitStyles ∧
      getEffectStyles asciiToLowerCase (some (lit "Benefit outweighs harm")) = .ok benefitStyles :=
  have h := effect_classification asciiToLowerCase (lit "Benefit outweighs harm")
  ⟨h.2.2.2.1 (by decide), h.2.2.2.2 (by decide), h.2.1 (by decide) (by decide)⟩

/-- The first piece of a split on a single code unit is what stands before
the first such unit. -/
theorem splitGo_single_head (c0 : Nat) (s : JSString) :
    ∀ (cur : JSString),
      (splitGo [c0] s 0 cur).head? = some (cur.reverse ++ s.takeWhile fun c => c != c0) := by
  induction s with
  | nil => intro cur; simp [splitGo]
  | cons c cs ih =>
    intro cur
    rw [splitGo]
    by_cases hc : c0 = c
    · subst hc
      simp [List.isPrefixOf]
    · have hne : (c != c0) = true := by simpa using fun h => hc h.symm
      have hp : List.isPrefixOf [c0] (c :: cs) = false := by
        simp [List.isPrefixOf, hc]
      rw [hp]
      simp only [Bool.false_eq_true, if_false]
      rw [ih, List.takeWhile_cons, hne]
      simp

theorem takeWhile_space_eq_token (s : JSString)
    (honly : ∀ c ∈ s, isWhiteSpace c = true → c = 32) (hhead : s.head? ≠ some 32) :
    (s.takeWhile fun c => c != 32) = firstWhitespaceToken s := by
  have hdrop : s.dropWhile isWhiteSpace = s := by
    cases s with
    | nil => rfl
    | cons a as =>
      have ha : isWhiteSpace a = false := by
        rw [Bool.eq_false_iff]
        intro hw
        exact hhead (by simp [honly a (List.mem_cons_self _ _) hw])
      simp [List.dropWhile_cons, ha]
  unfold firstWhitespaceToken
  rw [hdrop]
  clear hdrop hhead
  induction s with
  | nil => rfl
  | cons a as ih =>
    have ih2 := ih fun c hc => honly c (List.mem_cons_of_mem _ hc)
    by_cases ha : a = 32
    · subst ha
      simp [List.takeWhile_cons, isWhiteSpace]
    · have hw : isWhiteSpace a = false := by
        rw [Bool.eq_false_iff]
        intro hw
        exact ha (honly a (List.mem_cons_self _ _) hw)
      simp [List.takeWhile_cons, ha, hw, ih2]

/-- C9, as the code has it.  A `study_id` of more than 20 code units gets as
concise label what stands before its first space (U+0020), the whole of it
when it has no space, followed by " Trial"; a shorter one is kept unchanged.
Where a `study_id` has no other white space than U+0020 and does not start
with one, that part is its first whitespace-delimited token. -/
theorem concise_label (study_id : JSString) :
    conciseLabel (some study_id) =
        .ok (if study_id.length > 20 then
               (study_id.takeWhile fun c => c != 32) ++ lit " Trial"
             else study_id) ∧
      ((∀ c ∈ study_id, isWhiteSpace c = true → c = 32) → study_id.head? ≠ some 32 →
        conciseLabel (some study_id) = .ok (specConciseLabel study_id)) := by
  have key : conciseLabel (some study_id) =
      .ok (if study_id.length > 20 then
             (study_id.takeWhile fun c => c != 32) ++ lit " Trial"
           else study_id) := by
    have hsplit := splitGo_single_head 32 study_id []
    simp only [List.reverse_nil, List.nil_append] at hsplit
    have hsp : (split (lit " ") study_id).head? =
        some (study_id.takeWhile fun c => c != 32) := hsplit
    simp only [conciseLabel, firstPieceTrial, hsp]
    split_ifs <;> rfl
  refine ⟨key, fun honly hhead => ?_⟩
  rw [key, specConciseLabel, takeWhile_space_eq_token study_id honly hhead]

/-- C9 at the two shapes of the specification: a 25-unit `study_id` with a
space, and an 18-unit one. -/
theorem concise_label_witness :
    longStudyId.length = 25 ∧
      conciseLabel (some longStudyId) = .ok (lit "CARDIO-PREVENT Trial") ∧
      shortStudyId.length = 18 ∧
      conciseLabel (some shortStudyId) = .ok shortStudyId :=
  ⟨by decide,
   ((concise_label longStudyId).2 (by decide) (by decide)).trans (congrArg Except.ok (by decide)),
   by decide,
   ((concise_label shortStudyId).2 (by decide) (by decide)).trans (congrArg Except.ok (by decide))⟩

/-- C9 fails at a `study_id` of 27 code units whose words are separated by a
tab: its first whitespace-delimited token is "NCT01234567", but the code
splits on U+0020 only and keeps the whole of it. -/
theorem concise_label_tab_separated :
    tabbedStudyId.length = 27 ∧
      firstWhitespaceToken tabbedStudyId = lit "NCT01234567" ∧
      conciseLabel (some tabbedStudyId) = .ok (lit "NCT01234567\tPhase-III-Study Trial") ∧
      conciseLabel (some tabbedStudyId) ≠ .ok (specConciseLabel tabbedStudyId) := by
  refine ⟨by decide, by decide, by rfl, ?_⟩
  intro h
  have h2 : conciseLabel (some tabbedStudyId) = .ok (lit "NCT01234567\tPhase-III-Study Trial") := by
    rfl
  rw [h2] at h
  exact absurd (Except.ok.inj h) (by decide)

/-! ## Totality of the shaping functions -/

theorem strengthLabel_total (analysisResult : Option SynthesisResult) :
    ∃ label, strengthLabel analysisResult = .ok label := by
  unfold strengthLabel strengthText strengthParts split
  cases h : splitGo dueTo (strengthAndJustification analysisResult) 0 [] with
  | nil => exact absurd h (splitGo_ne_nil _ _ _ _)
  | cons x xs => exact ⟨trim x, rfl⟩

theorem conciseLabel_some (id : JSString) : ∃ label, conciseLabel (some id) = .ok label := by
  simp only [conciseLabel]
  split_ifs
  · exact ⟨_, rfl⟩
  · exact ⟨_, rfl⟩

theorem chartData_total (points : List EffectPoint) :
    ∀ (index : Nat), (∀ p ∈ points, p.study_id ≠ none) →
      ∃ ds, chartData points index = .ok ds ∧ ds.length = points.length := by
  induction points with
  | nil => intro _ _; exact ⟨[], rfl, rfl⟩
  | cons p rest ih =>
    intro index h
    obtain ⟨ds, hds, hlen⟩ := ih (index + 1) fun q hq => h q (List.mem_cons_of_mem _ hq)
    cases hid : p.study_id with
    | none => exact absurd hid (h p (List.mem_cons_self _ _))
    | some id =>
      obtain ⟨label, hl⟩ := conciseLabel_some id
      refine ⟨{ study_id := some id, index := index, estimate := p.effect_estimate,
                ci_range := (p.ci_lower, p.ci_upper), concise_label := label } :: ds, ?_, ?_⟩
      · simp only [chartData, hid, hl, hds]
      · simp [hlen]

theorem chartData_throws (points : List EffectPoint) :
    ∀ (index : Nat), (∃ p ∈ points, p.study_id = none) →
      chartData points index = .error .typeError := by
  induction points with
  | nil => intro _ h; obtain ⟨p, hp, _⟩ := h; cases hp
  | cons p rest ih =>
    intro index h
    cases hid : p.study_id with
    | none => simp only [chartData, hid, conciseLabel]
    | some id =>
      have hrest : ∃ q ∈ rest, q.study_id = none := by
        obtain ⟨q, hq, hnone⟩ := h
        rcases List.mem_cons.mp hq with rfl | hq
        · rw [hid] at hnone; cases hnone
        · exact ⟨q, hq, hnone⟩
      obtain ⟨label, hl⟩ := conciseLabel_some id
      simp only [chartData, hid, hl, ih (index + 1) hrest]

theorem outcomeCard_total (toLowerCase : JSString → JSString) (e : OutcomeEntry)
    (h : e.effect_direction ≠ none ∧ e.outcome_label ≠ none) :
    ∃ card, outcomeCard toLowerCase e = .ok card := by
  cases hd : e.effect_direction with
  | none => exact absurd hd h.1
  | some d =>
    cases hl : e.outcome_label with
    | none => exact absurd hl h.2
    | some l =>
      simp only [outcomeCard, hd, hl, getEffectStyles, displayLabel]
      split_ifs <;> exact ⟨_, rfl⟩

theorem outcomeCard_throws (toLowerCase : JSString → JSString) (e : OutcomeEntry)
    (h : e.effect_direction = none ∨ e.outcome_label = none) :
    outcomeCard toLowerCase e = .error .typeError := by
  cases hd : e.effect_direction with
  | none => simp only [outcomeCard, hd, getEffectStyles]
  | some d =>
    have hl : e.outcome_label = none := by
      rcases h with h | h
      · rw [hd] at h; cases h
      · exact h
    simp only [outcomeCard, hd, hl, getEffectStyles, displayLabel]
    split_ifs <;> rfl

theorem outcomeCards_total (toLowerCase : JSString → JSString) (entries : List OutcomeEntry) :
    (∀ e ∈ entries, e.effect_direction ≠ none ∧ e.outcome_label ≠ none) →
      ∃ cards, outcomeCards toLowerCase entries = .ok cards ∧ cards.length = entries.length := by
  induction entries with
  | nil => intro _; exact ⟨[], rfl, rfl⟩
  | cons e rest ih =>
    intro h
    obtain ⟨cards, hcards, hlen⟩ := ih fun q hq => h q (List.mem_cons_of_mem _ hq)
    obtain ⟨card, hcard⟩ := outcomeCard_total toLowerCase e (h e (List.mem_cons_self _ _))
    exact ⟨card :: cards, by simp only [outcomeCards, hcard, hcards], by simp [hlen]⟩

theorem outcomeCards_throws (toLowerCase : JSString → JSString) (entries : List OutcomeEntry) :
    (∃ e ∈ entries, e.effect_direction = none ∨ e.outcome_label = none) →
      outcomeCards toLowerCase entries = .error .typeError := by
  induction entries with
  | nil => intro h; obtain ⟨e, he, _⟩ := h; cases he
  | cons e rest ih =>
    intro h
    by_cases hbad : e.effect_direction = none ∨ e.outcome_label = none
    · simp only [outcomeCards, outcomeCard_throws toLowerCase e hbad]
    · have hgood : e.effect_direction ≠ none ∧ e.outcome_label ≠ none := by
        rw [not_or] at hbad; exact hbad
      obtain ⟨card, hcard⟩ := outcomeCard_total toLowerCase e hgood
      have hrest : ∃ q ∈ rest, q.effect_direction = none ∨ q.outcome_label = none := by
        obtain ⟨q, hq, hq2⟩ := h
        rcases List.mem_cons.mp hq with rfl | hq
        · exact absurd hq2 hbad
        · exact ⟨q, hq, hq2⟩
      simp only [outcomeCards, hcard, ih hrest]

/-- The consensus-statement line throws on an analysis that is there but has
no `contradiction_alert`, where the risk-of-bias line above it shows "...". -/
theorem consensusStatement_without_alert :
    consensusStatement (some emptyResult) = .error .typeError ∧
      riskAlert (some emptyResult) = lit "..." :=
  ⟨rfl, rfl⟩

/-- C10, as the code has it.  Strength parsing and strength classification
return a value for every payload, absent or without `strength_of_evidence`
included (the label is then "Analyzing..." and the justification the fallback).
The consensus-statement test returns a value for an absent payload and for one
that has a `contradiction_alert`.  The forest-plot and outcome-map projections
render "missing" for an absent or empty sequence, return a value when every
item has the string fields they read (`study_id`; `effect_direction` and
`outcome_label`), and throw a `TypeError` as soon as one item lacks one. -/
theorem shaping_total (toLowerCase : JSString → JSString)
    (analysisResult : Option SynthesisResult) (points : List EffectPoint)
    (entries : List OutcomeEntry) :
    (∃ label, strengthLabel analysisResult = .ok label ∧
      strengthColor toLowerCase analysisResult =
        .ok (getStrengthTextColor toLowerCase (some label))) ∧
    ((analysisResult = none ∨
        ∃ result, analysisResult = some result ∧ result.strength_of_evidence = none) →
      strengthLabel analysisResult = .ok (lit "Analyzing...") ∧
      justification analysisResult = lit "Summary justification not available.") ∧
    consensusStatement none = .ok "Conflict analysis requires further data inspection." ∧
    ((∃ result alert, analysisResult = some result ∧ result.contradiction_alert = some alert) →
      ∃ text, consensusStatement analysisResult = .ok text) ∧
    ForestPlot none = .ok .missing ∧
    ForestPlot (some []) = .ok .missing ∧
    ((∀ p ∈ points, p.study_id ≠ none) → ∃ view, ForestPlot (some points) = .ok view) ∧
    ((∃ p ∈ points, p.study_id = none) → ForestPlot (some points) = .error .typeError) ∧
    OutcomeMap toLowerCase none = .ok .missing ∧
    OutcomeMap toLowerCase (some []) = .ok .missing ∧
    ((∀ e ∈ entries, e.effect_direction ≠ none ∧ e.outcome_label ≠ none) →
      ∃ view, OutcomeMap toLowerCase (some entries) = .ok view) ∧
    ((∃ e ∈ entries, e.effect_direction = none ∨ e.outcome_label = none) →
      OutcomeMap toLowerCase (some entries) = .error .typeError) := by
  refine ⟨?_, ?_, rfl, ?_, rfl, rfl, ?_, ?_, rfl, rfl, ?_, ?_⟩
  · obtain ⟨label, hl⟩ := strengthLabel_total analysisResult
    exact ⟨label, hl, by simp only [strengthColor, hl]⟩
  · intro h
    have hstr : strengthAndJustification analysisResult = lit "Analyzing..." := by
      rcases h with h | ⟨result, h, hnone⟩
      · rw [h]; rfl
      · rw [h]; simp only [strengthAndJustification, hnone]
    have hparts : strengthParts analysisResult = [lit "Analyzing..."] := by
      unfold strengthParts
      rw [hstr]
      decide
    simp [strengthLabel, strengthText, justification, justificationParts, hparts,
      fallbackJustification]
    decide
  · rintro ⟨result, alert, h, halert⟩
    rw [h]
    simp only [consensusStatement, halert]
    split_ifs <;> exact ⟨_, rfl⟩
  · intro h
    obtain ⟨ds, hds, hlen⟩ := chartData_total points 0 h
    simp only [ForestPlot, hds]
    split_ifs <;> exact ⟨_, rfl⟩
  · intro h
    have hne : ¬ points.length = 0 := by
      obtain ⟨p, hp, _⟩ := h
      exact Nat.pos_iff_ne_zero.mp (List.length_pos_of_mem hp)
    simp only [ForestPlot, hne, if_false, chartData_throws points 0 h]
  · intro h
    obtain ⟨cards, hcards, hlen⟩ := outcomeCards_total toLowerCase entries h
    simp only [OutcomeMap, hcards]
    split_ifs <;> exact ⟨_, rfl⟩
  · intro h
    have hne : ¬ entries.length = 0 := by
      obtain ⟨e, he, _⟩ := h
      exact Nat.pos_iff_ne_zero.mp (List.length_pos_of_mem he)
    simp only [OutcomeMap, hne, if_false, outcomeCards_throws toLowerCase entries h]

/-- C10 at a payload without `strength_of_evidence` but with a
`contradiction_alert`, and at sequences whose items have every field. -/
theorem shaping_total_witness :
    strengthLabel (some { emptyResult with contradiction_alert := some (lit "N/A") }) =
        .ok (lit "Analyzing...") ∧
      (∃ text, consensusStatement
        (some { emptyResult with contradiction_alert := some (lit "N/A") }) = .ok text) ∧
      (∃ view, ForestPlot (some [pointA]) = .ok view) ∧
      (∃ view, OutcomeMap asciiToLowerCase (some [entryA]) = .ok view) ∧
      ForestPlot (some [pointA, pointNoId]) = .error .typeError ∧
      OutcomeMap asciiToLowerCase (some [entryA, entryNoLabel]) = .error .typeError :=
  have h := shaping_total asciiToLowerCase
    (some { emptyResult with contradiction_alert := some (lit "N/A") }) [pointA] [entryA]
  have h2 := shaping_total asciiToLowerCase none [pointA, pointNoId] [entryA, entryNoLabel]
  ⟨(h.2.1 (Or.inr ⟨_, rfl, rfl⟩)).1,
   h.2.2.2.1 ⟨_, _, rfl, rfl⟩,
   h.2.2.2.2.2.2.1 (by decide),
   h.2.2.2.2.2.2.2.2.2.2.1 (by decide),
   h2.2.2.2.2.2.2.2.1 ⟨pointNoId, List.mem_cons_of_mem _ (List.mem_cons_self _ _), rfl⟩,
   h2.2.2.2.2.2.2.2.2.2.2.2
     ⟨entryNoLabel, List.mem_cons_of_mem _ (List.mem_cons_self _ _), Or.inr rfl⟩⟩

/-- C10 fails on items that lack a field: a forest-plot point without
`study_id`, an outcome entry without `effect_direction` and one without
`outcome_label` each make their projection throw instead of returning an empty
or neutral result. -/
theorem shaping_throws_on_missing_item_field :
    ForestPlot (some [pointNoId]) = .error .typeError ∧
      OutcomeMap asciiToLowerCase (some [entryNoDirection]) = .error .typeError ∧
      OutcomeMap asciiToLowerCase (some [entryNoLabel]) = .error .typeError ∧
      getEffectStyles asciiToLowerCase none = .error .typeError ∧
      conciseLabel none = .error .typeError ∧
      displayLabel none = .error .typeError :=
  ⟨rfl, rfl, rfl, rfl, rfl, rfl⟩

/-! ## The guard and partial failure -/

/-- C11.  On a state without documents `handleAnalyze` only sets the message
"Please upload at least one PDF file.": the document list, the records, the
analysis and the loading flag stay what they were, and the run calls neither
`extractTrialData` nor `analyzeContradiction` (it has no events at all). -/
theorem handleAnalyze_no_files (net : Network) (s : RunState) (h : s.files = []) :
    (handleAnalyze net s).state.error = some (lit "Please upload at least one PDF file.") ∧
    (handleAnalyze net s).state.files = s.files ∧
    (handleAnalyze net s).state.extractedData = s.extractedData ∧
    (handleAnalyze net s).state.analysisResult = s.analysisResult ∧
    (handleAnalyze net s).state.loading = s.loading ∧
    (handleAnalyze net s).state = { s with error := some uploadMessage } ∧
    (handleAnalyze net s).log = [] ∧
    extractCalls (handleAnalyze net s).log = [] ∧
    analyzeCalls (handleAnalyze net s).log = [] := by
  have hrun : handleAnalyze net s = { state := { s with error := some uploadMessage }, log := [] } := by
    unfold handleAnalyze
    simp [h]
  rw [hrun]
  exact ⟨rfl, rfl, rfl, rfl, rfl, rfl, rfl, rfl, rfl⟩

/-- C11 on the fresh page, against a service that would answer every request. -/
theorem handleAnalyze_no_files_witness :
    (handleAnalyze serviceUp initialState).state =
        { initialState with error := some (lit "Please upload at least one PDF file.") } ∧
      (handleAnalyze serviceUp initialState).log = [] :=
  have h := handleAnalyze_no_files serviceUp initialState rfl
  ⟨h.2.2.2.2.2.1, h.2.2.2.2.2.2.1⟩

theorem filterMap_all_some {α β : Type} (f : α → Option β) (l : List α)
    (h : ∀ a ∈ l, ∃ b, f a = some b) : (l.filterMap f).map some = l.map f := by
  induction l with
  | nil => rfl
  | cons a t ih =>
    obtain ⟨b, hb⟩ := h a (List.mem_cons_self _ _)
    rw [List.filterMap_cons_some hb, List.map_cons, List.map_cons,
      ih fun c hc => h c (List.mem_cons_of_mem _ hc), hb]

/-- Where `f` is `none` at position `k` only, `filterMap f` keeps the values of
`f` at all other positions, in order. -/
theorem filterMap_one_none {α β : Type} (f : α → Option β) (l : List α) :
    ∀ (k : Nat) (hk : k < l.length), f l[k] = none →
      (∀ (i : Nat) (hi : i < l.length), i ≠ k → ∃ b, f l[i] = some b) →
      (l.filterMap f).map some = (l.eraseIdx k).map f := by
  induction l with
  | nil => intro k hk; simp at hk
  | cons a t ih =>
    intro k hk hnone hsome
    cases k with
    | zero =>
      have ha : f a = none := by simpa using hnone
      rw [List.filterMap_cons_none ha, List.eraseIdx_cons_zero]
      apply filterMap_all_some
      intro c hc
      obtain ⟨j, hj, rfl⟩ := List.getElem_of_mem hc
      have := hsome (j + 1) (by simpa using hj) (by omega)
      simpa using this
    | succ k =>
      obtain ⟨b, hb⟩ : ∃ b, f a = some b := by
        have := hsome 0 (by simp) (by omega)
        simpa using this
      have hk2 : k < t.length := by simpa using hk
      have hnone2 : f t[k] = none := by simpa using hnone
      have hsome2 : ∀ (i : Nat) (hi : i < t.length), i ≠ k → ∃ b, f t[i] = some b := by
        intro i hi hik
        have := hsome (i + 1) (by simpa using hi) (by omega)
        simpa using this
      rw [List.filterMap_cons_some hb, List.eraseIdx_cons_succ, List.map_cons, List.map_cons,
        ih k hk2 hnone2 hsome2, hb]

theorem handleAnalyze_extractedData (net : Network) (s : RunState) (hne : s.files ≠ []) :
    (handleAnalyze net s).state.extractedData = successfulRecords net s.files := by
  rw [handleAnalyze_state net s hne]
  unfold analyzeStep
  split_ifs
  · cases hc : analyzeContradiction net (successfulRecords net s.files) <;> rfl
  · rfl
  · rfl

theorem successfulRecords_of_one_failure (net : Network) (files : List File) (k : Nat)
    (hk : k < files.length) (hfail : ∃ m, extractTrialData net k files[k] = .error m)
    (hothers : ∀ (i : Nat) (hi : i < files.length), i ≠ k →
      ∃ d, extractTrialData net i files[i] = .ok d) :
    (successfulRecords net files).map some =
      (files.enum.eraseIdx k).map fun p => (extractTrialData net p.1 p.2).toOption := by
  unfold successfulRecords
  apply filterMap_one_none _ files.enum k (by simpa using hk)
  · obtain ⟨m, hm⟩ := hfail
    simp [hm, Except.toOption]
  · intro i hi hik
    obtain ⟨d, hd⟩ := hothers i (by simpa using hi) hik
    exact ⟨d, by simp [hd, Except.toOption]⟩

theorem someExtractionFailed_of_failure (net : Network) (files : List File) (k : Nat)
    (hk : k < files.length) (hfail : ∃ m, extractTrialData net k files[k] = .error m) :
    someExtractionFailed net files = true := by
  obtain ⟨m, hm⟩ := hfail
  unfold someExtractionFailed
  rw [List.any_eq_true]
  refine ⟨(k, files[k]), ?_, by simp [hm, Except.toBool]⟩
  rw [List.mk_mem_enum_iff_getElem?]
  exact List.getElem?_eq_getElem hk

/-- C12, as the code has it.  When extraction of the `k`-th document fails and
all others succeed, the published records are the results of the other calls,
in order, one fewer than the documents, and the loop's error message is set.
With a single document the run then ends in the error phase, without analysis.
With two documents it ends done with the single-study analysis and no
synthesis call.  With three or more, `analyzeContradiction` is called once on
the published records, and if it returns the run ends done with its result. -/
theorem handleAnalyze_one_failure (net : Network) (s : RunState) (k : Nat)
    (hk : k < s.files.length) (hfail : ∃ m, extractTrialData net k s.files[k] = .error m)
    (hothers : ∀ (i : Nat) (hi : i < s.files.length), i ≠ k →
      ∃ d, extractTrialData net i s.files[i] = .ok d) :
    ((handleAnalyze net s).state.extractedData.map some =
      (s.files.enum.eraseIdx k).map fun p => (extractTrialData net p.1 p.2).toOption) ∧
    (handleAnalyze net s).state.extractedData.length = s.files.length - 1 ∧
    (s.files.length = 1 →
      (handleAnalyze net s).state.phase = .Error ∧
      (handleAnalyze net s).state.extractedData = [] ∧
      (handleAnalyze net s).state.analysisResult = none ∧
      (handleAnalyze net s).state.error = some extractFailedMessage) ∧
    (s.files.length = 2 →
      (handleAnalyze net s).state.phase = .Done ∧
      (handleAnalyze net s).state.analysisResult = some singleStudyResult ∧
      (handleAnalyze net s).state.error = some extractFailedMessage ∧
      analyzeCalls (handleAnalyze net s).log = []) ∧
    (3 ≤ s.files.length →
      analyzeCalls (handleAnalyze net s).log = [(handleAnalyze net s).state.extractedData] ∧
      ∀ result, analyzeContradiction net (handleAnalyze net s).state.extractedData = .ok result →
        (handleAnalyze net s).state.phase = .Done ∧
        (handleAnalyze net s).state.analysisResult = some result ∧
        (handleAnalyze net s).state.error = some extractFailedMessage) := by
  have hne : s.files ≠ [] := by
    intro hnil
    rw [hnil] at hk
    simp at hk
  have hdata := handleAnalyze_extractedData net s hne
  have hmap := successfulRecords_of_one_failure net s.files k hk hfail hothers
  have hfailed := someExtractionFailed_of_failure net s.files k hk hfail
  have hlen : (successfulRecords net s.files).length = s.files.length - 1 := by
    have := congrArg List.length hmap
    simpa [List.length_eraseIdx, hk] using this
  have hstate := handleAnalyze_state net s hne
  have hcalls := handleAnalyze_analyzeCalls net s
  unfold analyzeStep at hstate
  refine ⟨by rw [hdata]; exact hmap, by rw [hdata]; exact hlen, ?_, ?_, ?_⟩
  · intro h1
    have h0 : (successfulRecords net s.files).length = 0 := by omega
    have hnil : successfulRecords net s.files = [] := List.length_eq_zero.mp h0
    simp only [hnil, List.length_nil, gt_iff_lt, Nat.not_lt_zero, if_false, zero_ne_one,
      publishedState, hfailed, if_true] at hstate
    rw [hstate]
    exact ⟨by simp [RunState.phase], rfl, rfl, rfl⟩
  · intro h2
    have h1 : (successfulRecords net s.files).length = 1 := by omega
    have hgt : ¬ (successfulRecords net s.files).length > 1 := by omega
    rw [if_neg hgt] at hcalls
    rw [if_neg hgt, if_pos h1] at hstate
    rw [hstate]
    exact ⟨by simp [RunState.phase], rfl, by simp [publishedState, hfailed], hcalls⟩
  · intro h3
    have hgt : (successfulRecords net s.files).length > 1 := by omega
    rw [if_pos hgt] at hcalls
    rw [if_pos hgt] at hstate
    refine ⟨by rw [hcalls, hdata], fun result hres => ?_⟩
    rw [hdata] at hres
    rw [hres] at hstate
    rw [hstate]
    exact ⟨by simp [RunState.phase], rfl, by simp [publishedState, hfailed]⟩

/-- C12 at two files of which the second fails, and at three files of which
the second fails while synthesis answers `200`. -/
theorem handleAnalyze_one_failure_witness :
    (handleAnalyze serviceFirstOnly selectedAB).state.phase = .Done ∧
      (handleAnalyze serviceFirstOnly selectedAB).state.extractedData =
        [recordFor (lit "a.pdf")] ∧
      (handleAnalyze serviceSecondFails selectedABC).state.phase = .Done ∧
      (handleAnalyze serviceSecondFails selectedABC).state.extractedData =
        [recordFor (lit "a.pdf"), recordFor (lit "c.pdf")] ∧
      (handleAnalyze serviceSecondFails selectedABC).state.analysisResult = some sampleResult :=
  have h2 := handleAnalyze_one_failure serviceFirstOnly selectedAB 1 (by decide) ⟨_, rfl⟩
    (fun i hi hik =>
      match i, hi, hik with
      | 0, _, _ => ⟨_, rfl⟩
      | 1, _, h => absurd rfl h)
  have h3 := handleAnalyze_one_failure serviceSecondFails selectedABC 1 (by decide) ⟨_, rfl⟩
    (fun i hi hik =>
      match i, hi, hik with
      | 0, _, _ => ⟨_, rfl⟩
      | 1, _, h => absurd rfl h
      | 2, _, _ => ⟨_, rfl⟩)
  have h3done := (h3.2.2.2.2 (by decide)).2 sampleResult rfl
  ⟨(h2.2.2.2.1 rfl).1, by decide, h3done.1, by decide, h3done.2.1⟩

/-- C12 fails at a single document whose extraction fails: exactly one
extraction fails, there is no other document, and the run ends in the error
phase with no records and no analysis. -/
theorem handleAnalyze_single_document_failure :
    selectedA.files.length = 1 ∧
      (∃ m, extractTrialData serviceDown 0 fileA = .error m) ∧
      (handleAnalyze serviceDown selectedA).state.phase = .Error ∧
      (handleAnalyze serviceDown selectedA).state.phase ≠ .Done ∧
      (handleAnalyze serviceDown selectedA).state.extractedData = [] ∧
      (handleAnalyze serviceDown selectedA).state.analysisResult = none :=
  ⟨rfl, ⟨_, rfl⟩, by decide, by decide, by decide, by decide⟩

/-- C13.  For every `outcome_label` string the card shows its first 30 code
units followed by "..." when it has more than 30, and the label unchanged
otherwise, so a label of exactly 30 is unchanged; a shortened label has 33
code units and starts like the original.  That is the label of the card of
every entry that has its string fields. -/
theorem outcome_label_truncation (toLowerCase : JSString → JSString) (label : JSString) :
    displayLabel (some label) =
        .ok (if label.length > 30 then label.take 30 ++ lit "..." else label) ∧
    (label.length = 30 → displayLabel (some label) = .ok label) ∧
    (label.length > 30 →
      ∃ shown, displayLabel (some label) = .ok shown ∧ shown.length = 33 ∧
        shown.take 30 = label.take 30 ∧ shown.drop 30 = [46, 46, 46]) ∧
    (∀ entry : OutcomeEntry, entry.outcome_label = some label → entry.effect_direction ≠ none →
      ∃ card, outcomeCard toLowerCase entry = .ok card ∧
        card.label = if label.length > 30 then label.take 30 ++ lit "..." else label) := by
  have key : displayLabel (some label) =
      .ok (if label.length > 30 then label.take 30 ++ lit "..." else label) := by
    simp only [displayLabel, substring0]
    split_ifs <;> rfl
  refine ⟨key, ?_, ?_, ?_⟩
  · intro h30
    rw [key, if_neg (by omega)]
  · intro hgt
    have htake : (label.take 30).length = 30 := by
      rw [List.length_take]; omega
    refine ⟨label.take 30 ++ lit "...", by rw [key, if_pos hgt], ?_, ?_, ?_⟩
    · rw [List.length_append, htake]; rfl
    · rw [List.take_append_of_le_length (by omega), List.take_of_length_le (by omega)]
    · rw [List.drop_append_of_le_length (by omega), List.drop_of_length_le (by omega)]
      rfl
  · intro entry hl hd
    cases hdir : entry.effect_direction with
    | none => exact absurd hdir hd
    | some d =>
      simp only [outcomeCard, hdir, hl, getEffectStyles, key]
      split_ifs <;> exact ⟨_, rfl, rfl⟩

/-- C13 at a label of 31 code units, at one of exactly 30 and at a short one. -/
theorem outcome_label_truncation_witness :
    displayLabel (some (lit "Major adverse cardiac events ab")) =
        .ok (lit "Major adverse cardiac events a...") ∧
      displayLabel (some (lit "Major adverse cardiac events a")) =
        .ok (lit "Major adverse cardiac events a") ∧
      displayLabel (some (lit "All-cause mortality")) = .ok (lit "All-cause mortality") :=
  ⟨(outcome_label_truncation asciiToLowerCase (lit "Major adverse cardiac events ab")).1.trans
     (congrArg Except.ok (by decide)),
   (outcome_label_truncation asciiToLowerCase (lit "Major adverse cardiac events a")).2.1
     (by decide),
   (outcome_label_truncation asciiToLowerCase (lit "All-cause mortality")).1.trans
     (congrArg Except.ok (by decide))⟩

end EvidenceEngine
